import Mathlib

/-!
Shallow embedding of the resumable frame-swapping pipeline in `run.py`
(repository `willlllllio/roop`), together with theorems settling the
frozen claims about its specification.

Paths are modelled as (directory, basename) pairs and the filesystem as a
finite list of existing paths, snapshotted at the relevant moment.  Every
definition is translated from the source file `run.py`; the few places
where behaviour of a helper living outside the provided sources had to be
modelled from the specification are marked `Modelled from the spec`.
-/

deriving instance DecidableEq for Except

namespace Roop

/-- Filesystem path, modelled as the directory part plus the basename.
Python `Path.name` is the `base` field; `output_dir / name` is
`FPath.mk output_dir name`. -/
structure FPath where
  dir : String
  base : String
deriving DecidableEq, Repr

/-- Filesystem snapshot: the finite set of paths that currently exist,
as a list. -/
abbrev FS := List FPath

/-- Python `path.exists()` against the snapshot `fs`. -/
def pathExists (fs : FS) (p : FPath) : Bool :=
  decide (p ∈ fs)

/-- Effect of Python `path.unlink()` on the snapshot: the path is gone. -/
def removePath (fs : FS) (p : FPath) : FS :=
  fs.filter (fun q => decide (q ≠ p))

/-- Errors raised by the pipeline.  Each constructor corresponds to one
`raise` site (most of them `ensure(...)` calls) in `run.py`, or to an
exception raised by the Python runtime itself. -/
inductive Err
  /-- `ensure(nums == sorted(range(1, len(files) + 1)), c = ("expected continuous frames", nums))`
  in `get_framepaths`; carries the sorted ordinal list. -/
  | discontinuousFrames (nums : List Nat)
  /-- `AttributeError` from `_leading_num_reg.search(file.name).group(1)` when the
  regex does not match (filename has no leading digit). -/
  | attributeError
  /-- `TypeError` from `sorted(with_num)`: tuples with equal first components make
  Python compare the `os.DirEntry` payloads, which define no ordering. -/
  | typeError
  /-- `FileNotFoundError` from `dst.unlink(missing_ok = False)` on a missing path. -/
  | fileNotFound
  /-- `ensure(not path.exists(), ...)` guarding a destination path. -/
  | outputAlreadyExists
  /-- Any other failed `ensure(...)`. -/
  | ensureFailed
  /-- `ensure_equal(len(buffer), img_size)` in `_frame_gen_ffmpeg`: the decoder
  produced a partial frame. -/
  | truncatedStream
deriving DecidableEq, Repr

/-- Python slice `s[:-k]`.  Note `s[:-0]` is `s[:0] = ""` in Python, not `s`. -/
def pySliceNeg (s : String) (k : Nat) : String :=
  if k = 0 then "" else String.mk (s.toList.take (s.toList.length - k))

/-- Unit of work of the partitioner: `(input frame path, expected output path)`. -/
structure Job where
  src : FPath
  dst : FPath
deriving DecidableEq, Repr

/-- Output basename built in `_frames`:
`outname = i.name[:-len(org_suffix)] + swapped_suffix`. -/
def outName (name orgSuffix swappedSuffix : String) : String :=
  pySliceNeg name orgSuffix.length ++ swappedSuffix

/-- Translation of `_frames(frame_paths, output_dir, org_suffix, swapped_suffix)`:
builds the job list, then splits it into `todo` / `done` by appending each job
to `done` iff its output path exists (order-preservingly, i.e. `List.filter`).
Returns `(frames, todo, done)` exactly as the source does. -/
def framesFn (fs : FS) (framePaths : List FPath) (outputDir : String)
    (orgSuffix swappedSuffix : String) : List Job × List Job × List Job :=
  let frames := framePaths.map
    (fun i => ⟨i, ⟨outputDir, outName i.base orgSuffix swappedSuffix⟩⟩)
  let todo := frames.filter (fun j => !(pathExists fs j.dst))
  let done := frames.filter (fun j => pathExists fs j.dst)
  (frames, todo, done)

/-- C1: for every WorkPartition produced by `_frames`, `all` is the disjoint
union of `todo` and `done`: a job is in `all` iff it is in `todo` or in `done`,
never in both, and membership in `done` is exactly the existence of the job's
expected output path in the filesystem snapshot taken at partition time. -/
theorem c1_partition_disjoint_union
    (fs : FS) (framePaths : List FPath) (outputDir orgSuffix swappedSuffix : String)
    (j : Job) :
    (j ∈ (framesFn fs framePaths outputDir orgSuffix swappedSuffix).1 ↔
      (j ∈ (framesFn fs framePaths outputDir orgSuffix swappedSuffix).2.1 ∨
       j ∈ (framesFn fs framePaths outputDir orgSuffix swappedSuffix).2.2))
    ∧ ¬(j ∈ (framesFn fs framePaths outputDir orgSuffix swappedSuffix).2.1 ∧
        j ∈ (framesFn fs framePaths outputDir orgSuffix swappedSuffix).2.2)
    ∧ (j ∈ (framesFn fs framePaths outputDir orgSuffix swappedSuffix).1 →
        (j ∈ (framesFn fs framePaths outputDir orgSuffix swappedSuffix).2.2 ↔
          pathExists fs j.dst = true)) := by
  simp only [framesFn, List.mem_filter]
  cases h : pathExists fs j.dst <;> simp [h]

/-- Witness for C1 at a concrete partition: one input frame whose output
exists, one whose output does not. -/
theorem c1_partition_disjoint_union_witness :
    (⟨⟨"in", "1.png"⟩, ⟨"out", "1.png"⟩⟩ : Job) ∈
        (framesFn [⟨"out", "1.png"⟩] [⟨"in", "1.png"⟩, ⟨"in", "2.png"⟩]
          "out" ".png" ".png").2.2 ↔
      pathExists [⟨"out", "1.png"⟩] (⟨⟨"in", "1.png"⟩, ⟨"out", "1.png"⟩⟩ : Job).dst = true := by
  have h := c1_partition_disjoint_union [⟨"out", "1.png"⟩]
    [⟨"in", "1.png"⟩, ⟨"in", "2.png"⟩] "out" ".png" ".png"
    ⟨⟨"in", "1.png"⟩, ⟨"out", "1.png"⟩⟩
  exact h.2.2 (by decide)

/-! Force-redo policies (`process_image_mode`, lines 425-439). -/

/-- Translation of the deletion loop `for _, dst in fp_done: dst.unlink(missing_ok = False)`:
unlink each path in sequence; a missing path raises `FileNotFoundError`. -/
def unlinkAll (fs : FS) : List FPath → Except Err FS
  | [] => .ok fs
  | p :: rest =>
    if pathExists fs p then unlinkAll (removePath fs p) rest
    else .error .fileNotFound

/-- Translation of the `del_done` block of `process_image_mode`:
`del_done` is set when `redo_swapped` holds and `len(fp_todo) != len(fp_all)`,
or when `redo_completed_swap` holds and `fp_todo` is empty; if set, every done
output is unlinked, `fp_todo` becomes `fp_all` and `fp_done` becomes empty.
Returns the filesystem after deletions together with the new `(todo, done)`. -/
def redoStep (redoSwapped redoCompletedSwap : Bool) (fs : FS)
    (all todo done : List Job) : Except Err (FS × List Job × List Job) :=
  let delDone := (redoSwapped && !(todo.length == all.length))
    || (redoCompletedSwap && todo.isEmpty)
  if delDone then
    match unlinkAll fs (done.map Job.dst) with
    | .ok fs2 => .ok (fs2, all, [])
    | .error e => .error e
  else .ok (fs, todo, done)

/-- Translation of `process_image_mode`'s partition-then-redo sequence: partition
with `_frames`, `ensure(fp_all, ...)`, then apply the force-redo policies. -/
def imageModeRedo (redoSwapped redoCompletedSwap : Bool) (fs : FS)
    (framePaths : List FPath) (outputDir orgSuffix swappedSuffix : String) :
    Except Err (FS × List Job × List Job) :=
  let parts := framesFn fs framePaths outputDir orgSuffix swappedSuffix
  if parts.1.isEmpty then .error .ensureFailed
  else redoStep redoSwapped redoCompletedSwap fs parts.1 parts.2.1 parts.2.2

theorem unlinkAll_ok (paths : List FPath) : ∀ fs : FS,
    paths.Nodup → (∀ p ∈ paths, p ∈ fs) →
    unlinkAll fs paths = .ok (fs.filter (fun q => decide (q ∉ paths))) := by
  induction paths with
  | nil => intro fs _ _; simp [unlinkAll, List.filter_eq_self]
  | cons p rest ih =>
    intro fs hnd hsub
    have hp : p ∈ fs := hsub p (List.mem_cons_self p rest)
    have hnd' := hnd
    rw [List.nodup_cons] at hnd'
    rw [unlinkAll]
    simp only [pathExists, decide_eq_true_eq, hp, if_pos]
    rw [ih (removePath fs p) hnd'.2]
    · congr 1
      simp only [removePath, List.filter_filter]
      apply List.filter_congr
      intro q _
      rcases Decidable.em (q = p) with h | h <;>
        rcases Decidable.em (q ∈ rest) with h2 | h2 <;> simp [h, h2]
    · intro q hq
      have hqfs : q ∈ fs := hsub q (List.mem_cons_of_mem p hq)
      simp only [removePath, List.mem_filter, decide_eq_true_eq]
      exact ⟨hqfs, fun he => hnd'.1 (he ▸ hq)⟩

theorem unlinkAll_missing {p : FPath} (paths : List FPath) : ∀ fs : FS,
    p ∈ paths → p ∉ fs → unlinkAll fs paths = .error .fileNotFound := by
  induction paths with
  | nil => intro fs h; cases h
  | cons q rest ih =>
    intro fs hmem hnot
    rw [unlinkAll]
    by_cases hq : q ∈ fs
    · simp only [pathExists, decide_eq_true hq, if_pos]
      rcases List.mem_cons.1 hmem with h | h
      · exact absurd (h ▸ hq) hnot
      · refine ih (removePath fs q) h ?_
        simp only [removePath, List.mem_filter, decide_eq_true_eq]
        rintro ⟨hfs, -⟩; exact hnot hfs
    · simp [pathExists, hq]

theorem redoStep_del {rs rc : Bool} {fs fs2 : FS} {all todo done : List Job}
    (h : ((rs && !(todo.length == all.length)) || (rc && todo.isEmpty)) = true)
    (hdel : unlinkAll fs (done.map Job.dst) = .ok fs2) :
    redoStep rs rc fs all todo done = .ok (fs2, all, []) := by
  simp only [redoStep, h, if_pos, hdel]

theorem redoStep_noop {rs rc : Bool} {fs : FS} {all todo done : List Job}
    (h : ((rs && !(todo.length == all.length)) || (rc && todo.isEmpty)) = false) :
    redoStep rs rc fs all todo done = .ok (fs, todo, done) := by
  simp only [redoStep, h]
  rfl

theorem length_filter_partition (l : List Job) (p : Job → Bool) :
    (l.filter p).length + (l.filter (fun j => !(p j))).length = l.length := by
  induction l with
  | nil => simp
  | cons a l ih => cases h : p a <;> simp [List.filter_cons, h, ← ih] <;> omega

/-- C3: behaviour of the force-redo policies on the partition produced by
`_frames` (with a non-empty frame set, as `ensure(fp_all, ...)` guarantees, and
pairwise-distinct output paths, as distinct basenames in one directory give).
(a) with `redo_swapped`, if some jobs are done but not all, every done output is
deleted and the partition becomes `(all, [])`; (b) with `redo_completed_swap`,
if everything is done, every output is deleted and the partition becomes
`(all, [])`; (c) with no done jobs, neither policy changes the partition or the
filesystem. -/
theorem c3_force_redo_policies
    (redoSwapped redoCompletedSwap : Bool) (fs : FS) (framePaths : List FPath)
    (outputDir orgSuffix swappedSuffix : String)
    (hnd : (((framesFn fs framePaths outputDir orgSuffix swappedSuffix).2.2).map Job.dst).Nodup) :
    (redoSwapped = true →
      (framesFn fs framePaths outputDir orgSuffix swappedSuffix).2.2 ≠ [] →
      (framesFn fs framePaths outputDir orgSuffix swappedSuffix).2.1 ≠ [] →
      imageModeRedo redoSwapped redoCompletedSwap fs framePaths outputDir orgSuffix swappedSuffix =
        .ok (fs.filter (fun q =>
              decide (q ∉ ((framesFn fs framePaths outputDir orgSuffix swappedSuffix).2.2).map Job.dst)),
          (framesFn fs framePaths outputDir orgSuffix swappedSuffix).1, []))
    ∧ (redoCompletedSwap = true →
      (framesFn fs framePaths outputDir orgSuffix swappedSuffix).2.1 = [] →
      (framesFn fs framePaths outputDir orgSuffix swappedSuffix).1 ≠ [] →
      imageModeRedo redoSwapped redoCompletedSwap fs framePaths outputDir orgSuffix swappedSuffix =
        .ok (fs.filter (fun q =>
              decide (q ∉ ((framesFn fs framePaths outputDir orgSuffix swappedSuffix).2.2).map Job.dst)),
          (framesFn fs framePaths outputDir orgSuffix swappedSuffix).1, []))
    ∧ ((framesFn fs framePaths outputDir orgSuffix swappedSuffix).2.2 = [] →
      (framesFn fs framePaths outputDir orgSuffix swappedSuffix).1 ≠ [] →
      imageModeRedo redoSwapped redoCompletedSwap fs framePaths outputDir orgSuffix swappedSuffix =
        .ok (fs, (framesFn fs framePaths outputDir orgSuffix swappedSuffix).2.1,
          (framesFn fs framePaths outputDir orgSuffix swappedSuffix).2.2)) := by
  have hsub : ∀ p ∈ ((framesFn fs framePaths outputDir orgSuffix swappedSuffix).2.2).map Job.dst,
      p ∈ fs := by
    intro p hp
    simp only [framesFn, List.mem_map, List.mem_filter] at hp
    obtain ⟨j, ⟨-, hex⟩, rfl⟩ := hp
    exact (of_decide_eq_true hex : j.dst ∈ fs)
  have hlen := length_filter_partition
    ((framesFn fs framePaths outputDir orgSuffix swappedSuffix).1)
    (fun j => pathExists fs j.dst)
  have htd : (framesFn fs framePaths outputDir orgSuffix swappedSuffix).2.2.length +
      (framesFn fs framePaths outputDir orgSuffix swappedSuffix).2.1.length =
      (framesFn fs framePaths outputDir orgSuffix swappedSuffix).1.length := by
    simpa [framesFn] using hlen
  have hdel := unlinkAll_ok _ fs hnd hsub
  refine ⟨?_, ?_, ?_⟩
  · intro hrs hdone htodo
    have hall : (framesFn fs framePaths outputDir orgSuffix swappedSuffix).1 ≠ [] := by
      intro h
      apply hdone
      have := htd
      have h0 : (framesFn fs framePaths outputDir orgSuffix swappedSuffix).1.length = 0 := by
        simp [h]
      exact List.length_eq_zero.1 (by omega)
    have hne : (framesFn fs framePaths outputDir orgSuffix swappedSuffix).2.1.length ≠
        (framesFn fs framePaths outputDir orgSuffix swappedSuffix).1.length := by
      intro h
      have hd0 : (framesFn fs framePaths outputDir orgSuffix swappedSuffix).2.2.length = 0 := by
        omega
      exact hdone (List.length_eq_zero.1 hd0)
    rw [imageModeRedo]
    rw [if_neg (by simpa [List.isEmpty_iff] using hall)]
    rw [redoStep_del (by simp [hrs, hne]) hdel]
  · intro hrc htodo hall
    rw [imageModeRedo]
    rw [if_neg (by simpa [List.isEmpty_iff] using hall)]
    rw [redoStep_del (by simp [hrc, htodo]) hdel]
  · intro hdone hall
    have hlen0 : (framesFn fs framePaths outputDir orgSuffix swappedSuffix).2.2.length = 0 := by
      simp [hdone]
    have htne : (framesFn fs framePaths outputDir orgSuffix swappedSuffix).2.1.length =
        (framesFn fs framePaths outputDir orgSuffix swappedSuffix).1.length := by omega
    have htodo_ne : (framesFn fs framePaths outputDir orgSuffix swappedSuffix).2.1 ≠ [] := by
      intro h
      apply hall
      apply List.length_eq_zero.1
      rw [← htne, h]
      simp
    rw [imageModeRedo]
    rw [if_neg (by simpa [List.isEmpty_iff] using hall)]
    rw [redoStep_noop (by simp [htne, List.isEmpty_iff, htodo_ne])]

/-- Witness for C3: five frames, three of them done, `redo_swapped` set —
the three done outputs are deleted and all five jobs are re-queued. -/
theorem c3_force_redo_policies_witness :
    imageModeRedo true false
        [⟨"sw", "1.png"⟩, ⟨"sw", "2.png"⟩, ⟨"sw", "3.png"⟩]
        [⟨"in", "1.png"⟩, ⟨"in", "2.png"⟩, ⟨"in", "3.png"⟩, ⟨"in", "4.png"⟩, ⟨"in", "5.png"⟩]
        "sw" ".png" ".png" =
      .ok (List.filter (fun q => decide (q ∉ List.map Job.dst
          (framesFn [⟨"sw", "1.png"⟩, ⟨"sw", "2.png"⟩, ⟨"sw", "3.png"⟩]
            [⟨"in", "1.png"⟩, ⟨"in", "2.png"⟩, ⟨"in", "3.png"⟩, ⟨"in", "4.png"⟩, ⟨"in", "5.png"⟩]
            "sw" ".png" ".png").2.2))
          [⟨"sw", "1.png"⟩, ⟨"sw", "2.png"⟩, ⟨"sw", "3.png"⟩],
        (framesFn [⟨"sw", "1.png"⟩, ⟨"sw", "2.png"⟩, ⟨"sw", "3.png"⟩]
          [⟨"in", "1.png"⟩, ⟨"in", "2.png"⟩, ⟨"in", "3.png"⟩, ⟨"in", "4.png"⟩, ⟨"in", "5.png"⟩]
          "sw" ".png" ".png").1, []) :=
  (c3_force_redo_policies true false
    [⟨"sw", "1.png"⟩, ⟨"sw", "2.png"⟩, ⟨"sw", "3.png"⟩]
    [⟨"in", "1.png"⟩, ⟨"in", "2.png"⟩, ⟨"in", "3.png"⟩, ⟨"in", "4.png"⟩, ⟨"in", "5.png"⟩]
    "sw" ".png" ".png" (by decide)).1 rfl (by decide) (by decide)

/-- Counterexample for C6 as stated: when the swapped directory and suffix
coincide with the frame directory and suffix (the suffix defaults are both
`".png"`), a job's expected output path equals its input path; the input frame
exists, so the job counts as done, and `redo_completed_swap` then unlinks the
input frame file itself — force-redo deletion does remove an input frame file
here, and the filesystem afterwards is empty. -/
theorem c6_delete_only_outputs_counterexample :
    imageModeRedo false true [⟨"X", "1.png"⟩] [⟨"X", "1.png"⟩] "X" ".png" ".png" =
        .ok ([], [⟨⟨"X", "1.png"⟩, ⟨"X", "1.png"⟩⟩], [])
      ∧ (⟨"X", "1.png"⟩ : FPath) ∈ ([⟨"X", "1.png"⟩] : FS)
      ∧ (⟨"X", "1.png"⟩ : FPath) ∈
          (framesFn [⟨"X", "1.png"⟩] [⟨"X", "1.png"⟩] "X" ".png" ".png").1.map Job.src := by
  refine ⟨rfl, by decide, by decide⟩

/-- C6 amended: whenever force-redo deletion fires, it removes exactly the
expected output paths of the done jobs — the resulting filesystem is the old
one with precisely the done-output paths filtered out, so every other path
(in particular every input frame path that does not coincide with a done
output path) is untouched — and each unlink is unconditional: if any done
output path is missing from the filesystem, the deletion raises
`FileNotFoundError` instead of skipping it. -/
theorem c6_delete_only_outputs_amended
    (rs rc : Bool) (fs : FS) (all todo done : List Job)
    (htrig : ((rs && !(todo.length == all.length)) || (rc && todo.isEmpty)) = true) :
    ((done.map Job.dst).Nodup → (∀ p ∈ done.map Job.dst, p ∈ fs) →
      redoStep rs rc fs all todo done =
          .ok (fs.filter (fun q => decide (q ∉ done.map Job.dst)), all, [])
        ∧ ∀ p, p ∉ done.map Job.dst →
            (p ∈ fs.filter (fun q => decide (q ∉ done.map Job.dst)) ↔ p ∈ fs))
    ∧ (∀ p ∈ done.map Job.dst, p ∉ fs →
        redoStep rs rc fs all todo done = .error .fileNotFound) := by
  constructor
  · intro hnd hsub
    refine ⟨redoStep_del htrig (unlinkAll_ok _ fs hnd hsub), ?_⟩
    intro p hp
    simp only [List.mem_filter, decide_eq_true_eq]
    exact ⟨fun h => h.1, fun h => ⟨h, hp⟩⟩
  · intro p hp hnot
    have herr := unlinkAll_missing (done.map Job.dst) fs hp hnot
    simp only [redoStep, htrig, if_pos, herr]

/-- Witness for C6 amended: two done jobs; deletion removes exactly their two
output files, leaves the input files alone, and a missing output errors. -/
theorem c6_delete_only_outputs_amended_witness :
    (redoStep true false
        [⟨"in", "1.png"⟩, ⟨"in", "2.png"⟩, ⟨"sw", "1.png"⟩, ⟨"sw", "2.png"⟩]
        [⟨⟨"in", "1.png"⟩, ⟨"sw", "1.png"⟩⟩, ⟨⟨"in", "2.png"⟩, ⟨"sw", "2.png"⟩⟩,
          ⟨⟨"in", "3.png"⟩, ⟨"sw", "3.png"⟩⟩]
        [⟨⟨"in", "3.png"⟩, ⟨"sw", "3.png"⟩⟩]
        [⟨⟨"in", "1.png"⟩, ⟨"sw", "1.png"⟩⟩, ⟨⟨"in", "2.png"⟩, ⟨"sw", "2.png"⟩⟩] =
        .ok (List.filter (fun q => decide (q ∉
            List.map Job.dst [⟨⟨"in", "1.png"⟩, ⟨"sw", "1.png"⟩⟩, ⟨⟨"in", "2.png"⟩, ⟨"sw", "2.png"⟩⟩]))
          [⟨"in", "1.png"⟩, ⟨"in", "2.png"⟩, ⟨"sw", "1.png"⟩, ⟨"sw", "2.png"⟩],
          [⟨⟨"in", "1.png"⟩, ⟨"sw", "1.png"⟩⟩, ⟨⟨"in", "2.png"⟩, ⟨"sw", "2.png"⟩⟩,
            ⟨⟨"in", "3.png"⟩, ⟨"sw", "3.png"⟩⟩], []))
      ∧ ((⟨"in", "1.png"⟩ : FPath) ∈
          List.filter (fun q => decide (q ∉
            List.map Job.dst [⟨⟨"in", "1.png"⟩, ⟨"sw", "1.png"⟩⟩, ⟨⟨"in", "2.png"⟩, ⟨"sw", "2.png"⟩⟩]))
          [⟨"in", "1.png"⟩, ⟨"in", "2.png"⟩, ⟨"sw", "1.png"⟩, ⟨"sw", "2.png"⟩] ↔
        (⟨"in", "1.png"⟩ : FPath) ∈
          ([⟨"in", "1.png"⟩, ⟨"in", "2.png"⟩, ⟨"sw", "1.png"⟩, ⟨"sw", "2.png"⟩] : FS)) := by
  have h := c6_delete_only_outputs_amended true false
    [⟨"in", "1.png"⟩, ⟨"in", "2.png"⟩, ⟨"sw", "1.png"⟩, ⟨"sw", "2.png"⟩]
    [⟨⟨"in", "1.png"⟩, ⟨"sw", "1.png"⟩⟩, ⟨⟨"in", "2.png"⟩, ⟨"sw", "2.png"⟩⟩,
      ⟨⟨"in", "3.png"⟩, ⟨"sw", "3.png"⟩⟩]
    [⟨⟨"in", "3.png"⟩, ⟨"sw", "3.png"⟩⟩]
    [⟨⟨"in", "1.png"⟩, ⟨"sw", "1.png"⟩⟩, ⟨⟨"in", "2.png"⟩, ⟨"sw", "2.png"⟩⟩]
    (by decide)
  obtain ⟨h1, h2⟩ := h.1 (by decide) (by decide)
  exact ⟨h1, h2 _ (by decide)⟩

/-! FrameSet Indexer (`get_framepaths`, lines 108-120). -/

/-- Python `name.endswith(filename_suffix)`. -/
def strEndsWith (s sfx : String) : Bool :=
  sfx.toList.isSuffixOf s.toList

/-- Numeric value of the captured digit run (Python `int(...)`). -/
def digitsToNat (ds : List Char) : Nat :=
  ds.foldl (fun a c => 10 * a + (c.toNat - '0'.toNat)) 0

/-- Regex `^(\d+)(?:[^\d]|$)` applied via `re.search`: it matches exactly when
the name starts with a decimal digit, and then group 1 is the maximal leading
digit run (the greedy `\d+` is followed by a non-digit or the end of string).
Returns the ordinal, or `none` when the regex does not match. -/
def leadingNum (name : String) : Option Nat :=
  let ds := name.toList.takeWhile Char.isDigit
  if ds.isEmpty then none else some (digitsToNat ds)

/-- Translation of the comprehension
`[(int(_leading_num_reg.search(file.name).group(1)), file) for file in files]`:
evaluated left to right; a name with no leading digit makes `.group(1)` blow up
with `AttributeError` (the regex search returned `None`). -/
def extractNums : List String → Except Err (List (Nat × String))
  | [] => .ok []
  | n :: rest =>
    match leadingNum n with
    | none => .error .attributeError
    | some k =>
      match extractNums rest with
      | .ok pairs => .ok ((k, n) :: pairs)
      | .error e => .error e

/-- Ordering used by `sorted(with_num)` in the cases where it succeeds:
tuples compared by first component. -/
def keyLe (a b : Nat × String) : Prop := a.1 ≤ b.1

instance : DecidableRel keyLe := fun a b => inferInstanceAs (Decidable (a.1 ≤ b.1))

instance : IsTotal (Nat × String) keyLe := ⟨fun a b => Nat.le_total a.1 b.1⟩

instance : IsTrans (Nat × String) keyLe := ⟨fun _ _ _ h1 h2 => Nat.le_trans h1 h2⟩

/-- Python `sorted(with_num)` on the `(int, os.DirEntry)` pairs: tuple
comparison resolves on the first components when they differ and falls through
to comparing the `os.DirEntry` payloads when they are equal; `os.DirEntry`
defines no ordering, so any tie between first components raises `TypeError`
while sorting.  With pairwise-distinct first components the result is the list
sorted by first component (stability is immaterial then, since the key
determines the pair's position uniquely). -/
def pySortPairs (l : List (Nat × String)) : Except Err (List (Nat × String)) :=
  if (l.map Prod.fst).Nodup then .ok (l.insertionSort keyLe) else .error .typeError

/-- Translation of `get_framepaths(frames_dir, filename_suffix, ensure_continuous)`.
The directory listing (whose `os.scandir` order is arbitrary) is the input list
of file names; the result is the list of matching names sorted by ordinal.
The continuity guard is
`ensure(nums == sorted(range(1, len(files) + 1)), c = ("expected continuous frames", nums))`. -/
def getFramepaths (dirFiles : List String) (filenameSuffix : String)
    (ensureContinuous : Bool) : Except Err (List String) :=
  let files := dirFiles.filter (fun n => strEndsWith n filenameSuffix)
  match extractNums files with
  | .error e => .error e
  | .ok withNum =>
    match pySortPairs withNum with
    | .error e => .error e
    | .ok sortedNum =>
      if ensureContinuous then
        if sortedNum.map Prod.fst = List.range' 1 files.length then
          .ok (sortedNum.map Prod.snd)
        else .error (.discontinuousFrames (sortedNum.map Prod.fst))
      else .ok (sortedNum.map Prod.snd)

theorem extractNums_map_snd : ∀ {l : List String} {w : List (Nat × String)},
    extractNums l = .ok w → w.map Prod.snd = l := by
  intro l
  induction l with
  | nil => intro w h; cases h; rfl
  | cons n rest ih =>
    intro w h
    rw [extractNums] at h
    cases hk : leadingNum n with
    | none => rw [hk] at h; cases h
    | some k =>
      rw [hk] at h
      cases hr : extractNums rest with
      | error e => rw [hr] at h; cases h
      | ok pairs =>
        rw [hr] at h
        cases h
        simp [ih hr]

theorem extractNums_err_of_none {n : String} : ∀ {l : List String},
    n ∈ l → leadingNum n = none → extractNums l = .error .attributeError := by
  intro l
  induction l with
  | nil => intro h; cases h
  | cons m rest ih =>
    intro hmem hnone
    rw [extractNums]
    cases hm : leadingNum m with
    | none => rfl
    | some k =>
      have hn : n ∈ rest := by
        rcases List.mem_cons.1 hmem with h | h
        · subst h; rw [hm] at hnone; cases hnone
        · exact h
      rw [ih hn hnone]

theorem sorted_le_range' (s n : Nat) : List.Sorted (· ≤ ·) (List.range' s n) :=
  (List.pairwise_lt_range' s n).imp Nat.le_of_lt

theorem sortedKeys_eq {w : List (Nat × String)} :
    (w.insertionSort keyLe).map Prod.fst = (w.map Prod.fst).insertionSort (· ≤ ·) :=
  List.map_insertionSort keyLe (· ≤ ·) Prod.fst w (fun _ _ _ _ => Iff.rfl)

/-- C2 amended: with continuity checking enabled and every matching filename
carrying a leading digit run, (1) the indexer succeeds if and only if the
extracted ordinals are exactly the set `{1, …, count}` (stated as a permutation
of `[1, …, count]`); (2) when the ordinals are pairwise distinct but their
sorted list is not `[1, …, count]` — a gap or a non-1-start — the indexer fails
with the continuity error carrying the sorted offending ordinal list; (3) when
some ordinal occurs twice the indexer also fails, but with the `TypeError`
raised while sorting the `(ordinal, direntry)` tuples, not with the continuity
error — this duplicate case is where the original claim was wrong. -/
theorem c2_continuity_check
    (dirFiles : List String) (filenameSuffix : String) (withNum : List (Nat × String))
    (hext : extractNums (dirFiles.filter (fun n => strEndsWith n filenameSuffix)) = .ok withNum) :
    ((∃ res, getFramepaths dirFiles filenameSuffix true = .ok res) ↔
      (withNum.map Prod.fst).Perm
        (List.range' 1 (dirFiles.filter (fun n => strEndsWith n filenameSuffix)).length))
    ∧ ((withNum.map Prod.fst).Nodup →
        (withNum.map Prod.fst).insertionSort (· ≤ ·) ≠
          List.range' 1 (dirFiles.filter (fun n => strEndsWith n filenameSuffix)).length →
        getFramepaths dirFiles filenameSuffix true =
          .error (.discontinuousFrames ((withNum.map Prod.fst).insertionSort (· ≤ ·))))
    ∧ (¬(withNum.map Prod.fst).Nodup →
        getFramepaths dirFiles filenameSuffix true = .error .typeError) := by
  have hperm : ((withNum.insertionSort keyLe).map Prod.fst).Perm (withNum.map Prod.fst) :=
    (List.perm_insertionSort keyLe withNum).map Prod.fst
  by_cases hnd : (withNum.map Prod.fst).Nodup
  · have hsort : pySortPairs withNum = .ok (withNum.insertionSort keyLe) := by
      rw [pySortPairs, if_pos hnd]
    refine ⟨?_, ?_, fun h => absurd hnd h⟩
    · simp only [getFramepaths, hext, hsort, if_true]
      constructor
      · rintro ⟨res, hres⟩
        by_cases hok : (withNum.insertionSort keyLe).map Prod.fst =
            List.range' 1 (dirFiles.filter (fun n => strEndsWith n filenameSuffix)).length
        · exact hok ▸ hperm.symm
        · rw [if_neg hok] at hres
          cases hres
      · intro hpm
        have hnums : (withNum.insertionSort keyLe).map Prod.fst =
            List.range' 1 (dirFiles.filter (fun n => strEndsWith n filenameSuffix)).length := by
          refine List.eq_of_perm_of_sorted (hperm.trans hpm) ?_ (sorted_le_range' _ _)
          rw [sortedKeys_eq]
          exact List.sorted_insertionSort (· ≤ ·) (withNum.map Prod.fst)
        rw [if_pos hnums]
        exact ⟨_, rfl⟩
    · intro _ hne
      simp only [getFramepaths, hext, hsort, if_true, sortedKeys_eq]
      rw [if_neg hne]
  · have hsort : pySortPairs withNum = .error .typeError := by
      rw [pySortPairs, if_neg hnd]
    refine ⟨?_, fun h => absurd h hnd, fun _ => by simp only [getFramepaths, hext, hsort]⟩
    simp only [getFramepaths, hext, hsort]
    constructor
    · rintro ⟨res, hres⟩; cases hres
    · intro hpm
      exact absurd ((List.nodup_range' 1 _).perm hpm.symm) hnd

/-- Witness for C2 amended at the spec's own example: files `1,2,4,5` raise the
continuity error carrying the offending list `[1, 2, 4, 5]`. -/
theorem c2_continuity_check_witness :
    getFramepaths ["1.png", "2.png", "4.png", "5.png"] ".png" true =
      .error (.discontinuousFrames [1, 2, 4, 5]) := by
  have h := (c2_continuity_check ["1.png", "2.png", "4.png", "5.png"] ".png"
    [(1, "1.png"), (2, "2.png"), (4, "4.png"), (5, "5.png")] (by decide)).2.1
    (by decide) (by decide)
  exact h

/-- Counterexample for C2 as stated: two files whose leading ordinals collide
(`1.png` and `1a.png`, ordinals `[1, 1]`).  The claim predicts a
`DiscontinuousFrameSequence` error carrying `[1, 1]`; the code instead dies
inside `sorted(with_num)` with a `TypeError`, because the tied `(1, direntry)`
tuples make Python compare the unorderable `os.DirEntry` payloads. -/
theorem c2_continuity_check_counterexample :
    getFramepaths ["1.png", "1a.png"] ".png" true = .error .typeError
      ∧ Err.typeError ≠ Err.discontinuousFrames [1, 1] := by
  exact ⟨by decide, by decide⟩

/-- C9: a file that matches the filename suffix but has no leading run of
decimal digits makes the indexer raise unconditionally (the `AttributeError`
from `.group(1)` on a failed regex search), whether or not continuity checking
is enabled. -/
theorem c9_nonnumeric_name_raises
    (dirFiles : List String) (filenameSuffix : String) (ensureContinuous : Bool)
    (n : String) (hn : n ∈ dirFiles.filter (fun m => strEndsWith m filenameSuffix))
    (hnone : leadingNum n = none) :
    getFramepaths dirFiles filenameSuffix ensureContinuous = .error .attributeError := by
  rw [getFramepaths, extractNums_err_of_none hn hnone]

/-- Witness for C9: directory `["a.png", "1.png"]`, suffix `".png"`; the file
`a.png` has no leading digit, so indexing errors in both continuity modes. -/
theorem c9_nonnumeric_name_raises_witness :
    getFramepaths ["a.png", "1.png"] ".png" true = .error .attributeError
      ∧ getFramepaths ["a.png", "1.png"] ".png" false = .error .attributeError :=
  ⟨c9_nonnumeric_name_raises ["a.png", "1.png"] ".png" true "a.png" (by decide) (by decide),
   c9_nonnumeric_name_raises ["a.png", "1.png"] ".png" false "a.png" (by decide) (by decide)⟩

/-! Subprocess decode source (`_frame_gen_ffmpeg`, lines 312-336). -/

/-- Translation of the read loop of `_frame_gen_ffmpeg`.  The decoder's whole
standard-output byte stream is the input list; `proc.stdout.read(img_size)`
returns the next `img_size` bytes, or fewer only at end of stream (a
`BufferedReader` over a pipe blocks until `img_size` bytes or EOF).  An empty
read breaks the loop; a non-empty short read fails
`ensure_equal(len(buffer), img_size)`; otherwise one frame of exactly
`img_size` bytes is yielded and the loop continues.  (`read(0)` returns the
empty buffer at once, so `img_size = 0` ends the loop immediately.) -/
def readFrames (imgSize : Nat) (s : List Nat) : Except Err (List (List Nat)) :=
  if imgSize = 0 then .ok []
  else if s.isEmpty then .ok []
  else if s.length < imgSize then .error .truncatedStream
  else
    match readFrames imgSize (s.drop imgSize) with
    | .ok frames => .ok (s.take imgSize :: frames)
    | .error e => .error e
termination_by s.length
decreasing_by
  rename_i h0 hne hlen
  rw [List.length_drop]
  have h1 : s.length ≠ 0 := by
    intro h
    exact hne (List.isEmpty_iff.2 (List.length_eq_zero.1 h))
  omega

/-- Translation of `_frame_gen_ffmpeg(args, source_path, width, height, ...)`
restricted to its byte-stream behaviour: `ensure(width and height)` first, then
the read loop with `img_size = width * height * 3`. -/
def frameGenFfmpeg (width height : Nat) (stream : List Nat) :
    Except Err (List (List Nat)) :=
  if width = 0 ∨ height = 0 then .error .ensureFailed
  else readFrames (width * height * 3) stream

theorem readFrames_spec (k : Nat) (hk : 0 < k) :
    ∀ (n : Nat) (s : List Nat), s.length ≤ n →
      ((k ∣ s.length → ∃ frames, readFrames k s = .ok frames ∧
        (∀ f ∈ frames, f.length = k) ∧ frames.flatten = s)
      ∧ (¬ k ∣ s.length → readFrames k s = .error .truncatedStream)) := by
  intro n
  induction n with
  | zero =>
    intro s hs
    have h0 : s = [] := List.length_eq_zero.1 (Nat.le_zero.1 hs)
    subst h0
    constructor
    · intro _
      refine ⟨[], ?_, by simp, by simp⟩
      rw [readFrames]
      simp [Nat.pos_iff_ne_zero.1 hk]
    · intro hnd
      simp at hnd
  | succ n ih =>
    intro s hs
    by_cases hemp : s = []
    · subst hemp
      constructor
      · intro _
        refine ⟨[], ?_, by simp, by simp⟩
        rw [readFrames]
        simp [Nat.pos_iff_ne_zero.1 hk]
      · intro hnd
        simp at hnd
    · have hlpos : 0 < s.length := List.length_pos.2 hemp
      constructor
      · intro hdvd
        have hge : k ≤ s.length := Nat.le_of_dvd hlpos hdvd
        have hrec := (ih (s.drop k) (by rw [List.length_drop]; omega)).1
          (by rw [List.length_drop]; exact Nat.dvd_sub' hdvd dvd_rfl)
        obtain ⟨frames, hok, hlenf, hjoin⟩ := hrec
        refine ⟨s.take k :: frames, ?_, ?_, ?_⟩
        · rw [readFrames]
          rw [if_neg (Nat.pos_iff_ne_zero.1 hk), if_neg (by simpa [List.isEmpty_iff] using hemp),
            if_neg (by omega), hok]
        · intro f hf
          rcases List.mem_cons.1 hf with h | h
          · subst h
            rw [List.length_take]
            omega
          · exact hlenf f h
        · simp only [List.flatten_cons, hjoin, List.take_append_drop]
      · intro hnd
        have hlt : s.length < k ∨ k ≤ s.length := Nat.lt_or_ge s.length k
        rcases hlt with hlt | hge
        · rw [readFrames]
          rw [if_neg (Nat.pos_iff_ne_zero.1 hk), if_neg (by simpa [List.isEmpty_iff] using hemp),
            if_pos hlt]
        · have hrec := (ih (s.drop k) (by rw [List.length_drop]; omega)).2
            (by
              rw [List.length_drop]
              intro hd
              exact hnd (by
                have : s.length = (s.length - k) + k := by omega
                rw [this]
                exact Nat.dvd_add hd dvd_rfl))
          rw [readFrames]
          rw [if_neg (Nat.pos_iff_ne_zero.1 hk), if_neg (by simpa [List.isEmpty_iff] using hemp),
            if_neg (by omega), hrec]

/-- C4: with nonzero probed dimensions, every frame yielded by the ffmpeg
decode source is exactly `width*height*3` bytes, in stream order with nothing
dropped (the concatenation of the yielded frames is the whole stream); the
stream ends cleanly exactly when the last read comes back empty, i.e. when the
stream length is a multiple of the frame size, and a trailing non-empty short
read instead raises the truncated-stream error without yielding a partial
frame. -/
theorem c4_exact_frame_reads (width height : Nat) (stream : List Nat)
    (hw : width ≠ 0) (hh : height ≠ 0) :
    ((width * height * 3 ∣ stream.length) →
      ∃ frames, frameGenFfmpeg width height stream = .ok frames ∧
        (∀ f ∈ frames, f.length = width * height * 3) ∧ frames.flatten = stream)
    ∧ (¬ (width * height * 3 ∣ stream.length) →
      frameGenFfmpeg width height stream = .error .truncatedStream) := by
  have hk : 0 < width * height * 3 := by
    have hw' : 0 < width := Nat.pos_of_ne_zero hw
    have hh' : 0 < height := Nat.pos_of_ne_zero hh
    positivity
  have h := readFrames_spec (width * height * 3) hk stream.length stream (le_refl _)
  constructor
  · intro hdvd
    obtain ⟨frames, hok, hlen, hjoin⟩ := h.1 hdvd
    exact ⟨frames, by rw [frameGenFfmpeg, if_neg (by tauto), hok], hlen, hjoin⟩
  · intro hnd
    rw [frameGenFfmpeg, if_neg (by tauto), h.2 hnd]

/-- Witness for C4 at `width = height = 1`: a 6-byte stream yields two complete
3-byte frames whose concatenation is the stream; a 5-byte stream raises the
truncated-stream error. -/
theorem c4_exact_frame_reads_witness :
    (∃ frames, frameGenFfmpeg 1 1 [10, 11, 12, 13, 14, 15] = .ok frames ∧
      (∀ f ∈ frames, f.length = 1 * 1 * 3) ∧ frames.flatten = [10, 11, 12, 13, 14, 15])
    ∧ frameGenFfmpeg 1 1 [10, 11, 12, 13, 14] = .error .truncatedStream :=
  ⟨(c4_exact_frame_reads 1 1 [10, 11, 12, 13, 14, 15] (by decide) (by decide)).1 (by decide),
   (c4_exact_frame_reads 1 1 [10, 11, 12, 13, 14] (by decide) (by decide)).2 (by decide)⟩

/-! Encode-sink / audio-remux strategy selection (`_video_save`, lines 290-309). -/

/-- Index of the last `'.'` in a list of characters, if any. -/
def lastDotIdx (cs : List Char) : Option Nat :=
  match cs.reverse.findIdx? (· = '.') with
  | some j => some (cs.length - 1 - j)
  | none => none

/-- Python `PurePath.suffix` of a basename: the part from the last dot on,
provided that dot is neither the first nor the last character; empty
otherwise. -/
def pySuffixOfName (name : String) : String :=
  match lastDotIdx name.toList with
  | some i =>
    if 0 < i ∧ i < name.toList.length - 1 then String.mk (name.toList.drop i) else ""
  | none => ""

/-- Python `Path.with_suffix(sfx)` on a basename: strip the old suffix if there
is one, then append the new one. -/
def pyWithSuffix (name sfx : String) : String :=
  let old := pySuffixOfName name
  if old = "" then name ++ sfx
  else String.mk (name.toList.take (name.toList.length - old.length)) ++ sfx

/-- Python `args["plain_format"] or args["format"]`: `None` and the empty
string fall through to `format`. -/
def plainOrFormat (plainFormat : Option String) (format : String) : String :=
  match plainFormat with
  | none => format
  | some p => if p = "" then format else p

/-- Intermediate `.plain` artifact path:
`output_path.with_suffix(".plain." + (args["plain_format"] or args["format"]))`. -/
def plainPath (outputPath : FPath) (plainFormat : Option String) (format : String) : FPath :=
  ⟨outputPath.dir, pyWithSuffix outputPath.base (".plain." ++ plainOrFormat plainFormat format)⟩

/-- Result tuple of `_video_save`:
`(output_path_gen, audio_source_path, audio_2stage, overwrite)`. -/
structure SaveSel where
  outputPathGen : FPath
  audioSourcePath : Option FPath
  audio2stage : Bool
  overwrite : Bool
deriving DecidableEq, Repr

/-- Translation of `_video_save(args, source_path, output_path, vid_info)`:
if direct audio is requested and the probed source has audio, encode with audio
straight to the final path; otherwise, if audio output is wanted and the source
has audio, target the intermediate `.plain` path (guarded by
`ensure(not output_path_gen.exists(), ...)` unless overwriting); otherwise
encode straight to the final path with no audio source. -/
def videoSave (directAudio vidOutputAudio overwrite hasAudio : Bool)
    (sourcePath outputPath : FPath) (plainFormat : Option String) (format : String)
    (fs : FS) : Except Err SaveSel :=
  if directAudio && hasAudio then
    .ok ⟨outputPath, some sourcePath, false, overwrite⟩
  else
    let audio2stage := vidOutputAudio && hasAudio
    if audio2stage then
      let gen := plainPath outputPath plainFormat format
      if !overwrite && pathExists fs gen then .error .outputAlreadyExists
      else .ok ⟨gen, none, true, overwrite⟩
    else .ok ⟨outputPath, none, false, overwrite⟩

/-- Modelled from the spec: `tmp_path_move_ctx` (in `core.utils`, which is not
among the provided sources) encodes to a sibling temporary path and promotes it
to the target path on success; with `overwrite` set it replaces an existing
file at the target, and without it the promotion refuses to clobber a
pre-existing target. -/
def tmpMoveAllowed (overwrite targetExists : Bool) : Bool :=
  overwrite || !targetExists

/-- C5: the one-pass direct-mux strategy is selected (audio pulled from the
source in the encode pass, writing straight to the final path) iff direct audio
is requested and the probed source has an audio track; otherwise the two-stage
plain-then-merge strategy is selected iff audio output is wanted and the source
has audio; in all remaining cases the encode goes straight to the final output
path with no audio source and no second stage.  The hypothesis rules out the
`.plain`-collision abort, which is C7's concern. -/
theorem c5_audio_strategy_selection
    (directAudio vidOutputAudio overwrite hasAudio : Bool)
    (sourcePath outputPath : FPath) (plainFormat : Option String) (format : String)
    (fs : FS)
    (hnc : overwrite = true ∨ pathExists fs (plainPath outputPath plainFormat format) = false) :
    (videoSave directAudio vidOutputAudio overwrite hasAudio sourcePath outputPath
        plainFormat format fs = .ok ⟨outputPath, some sourcePath, false, overwrite⟩ ↔
      (directAudio = true ∧ hasAudio = true))
    ∧ (¬(directAudio = true ∧ hasAudio = true) →
      (videoSave directAudio vidOutputAudio overwrite hasAudio sourcePath outputPath
          plainFormat format fs =
          .ok ⟨plainPath outputPath plainFormat format, none, true, overwrite⟩ ↔
        (vidOutputAudio = true ∧ hasAudio = true)))
    ∧ (¬(directAudio = true ∧ hasAudio = true) → ¬(vidOutputAudio = true ∧ hasAudio = true) →
      videoSave directAudio vidOutputAudio overwrite hasAudio sourcePath outputPath
        plainFormat format fs = .ok ⟨outputPath, none, false, overwrite⟩) := by
  have hguard : (!overwrite && pathExists fs (plainPath outputPath plainFormat format)) = false := by
    rcases hnc with h | h <;> simp [h]
  cases directAudio <;> cases vidOutputAudio <;> cases hasAudio <;> cases overwrite <;>
    simp_all [videoSave, SaveSel.mk.injEq]

/-- Witness for C5: with direct audio off, audio wanted, and an audio track
present, the two-stage strategy targeting the `.plain` path is selected. -/
theorem c5_audio_strategy_selection_witness :
    videoSave false true false true ⟨"v", "src.mp4"⟩ ⟨"v", "out.mp4"⟩ none "mp4" [] =
      .ok ⟨plainPath ⟨"v", "out.mp4"⟩ none "mp4", none, true, false⟩ :=
  ((c5_audio_strategy_selection false true false true ⟨"v", "src.mp4"⟩ ⟨"v", "out.mp4"⟩
    none "mp4" [] (Or.inr (by decide))).2.1 (by simp)).2 ⟨rfl, rfl⟩

/-- C7: when the two-stage strategy applies (direct audio not in effect, audio
wanted, source has audio), a pre-existing file at the intermediate `.plain`
path aborts the run unless overwrite is allowed; with overwrite allowed the
selection proceeds to the same `.plain` path and the temp-then-move promotion
is permitted to replace the pre-existing file. -/
theorem c7_plain_preexistence_guard
    (directAudio vidOutputAudio overwrite hasAudio : Bool)
    (sourcePath outputPath : FPath) (plainFormat : Option String) (format : String)
    (fs : FS)
    (h2 : ¬(directAudio = true ∧ hasAudio = true))
    (hv : vidOutputAudio = true) (ha : hasAudio = true) :
    (overwrite = false → pathExists fs (plainPath outputPath plainFormat format) = true →
      videoSave directAudio vidOutputAudio overwrite hasAudio sourcePath outputPath
        plainFormat format fs = .error .outputAlreadyExists)
    ∧ (overwrite = true →
      videoSave directAudio vidOutputAudio overwrite hasAudio sourcePath outputPath
          plainFormat format fs =
        .ok ⟨plainPath outputPath plainFormat format, none, true, true⟩
      ∧ tmpMoveAllowed true (pathExists fs (plainPath outputPath plainFormat format)) = true) := by
  rw [videoSave]
  rw [if_neg (by simpa [Bool.and_eq_true] using h2)]
  simp only [hv, ha, Bool.and_self, if_pos]
  constructor
  · intro ho hex
    simp [ho, hex]
  · intro ho
    subst ho
    exact ⟨by simp, rfl⟩

/-- Witness for C7: without overwrite, an existing `.plain` file aborts; with
overwrite, the same `.plain` target is selected and replacement is allowed. -/
theorem c7_plain_preexistence_guard_witness :
    videoSave false true false true ⟨"v", "s.mp4"⟩ ⟨"v", "o.mp4"⟩ none "mp4"
        [⟨"v", "o.plain.mp4"⟩] = .error .outputAlreadyExists
    ∧ videoSave false true true true ⟨"v", "s.mp4"⟩ ⟨"v", "o.mp4"⟩ none "mp4"
        [⟨"v", "o.plain.mp4"⟩] =
      .ok ⟨plainPath ⟨"v", "o.mp4"⟩ none "mp4", none, true, true⟩ :=
  ⟨(c7_plain_preexistence_guard false true false true ⟨"v", "s.mp4"⟩ ⟨"v", "o.mp4"⟩
      none "mp4" [⟨"v", "o.plain.mp4"⟩] (by simp) rfl rfl).1 rfl (by decide),
   ((c7_plain_preexistence_guard false true true true ⟨"v", "s.mp4"⟩ ⟨"v", "o.mp4"⟩
      none "mp4" [⟨"v", "o.plain.mp4"⟩] (by simp) rfl rfl).2 rfl).1⟩

/-! Run start-up (`start`, lines 171-232). -/

/-- Which processing path the run continues into after the start-up checks. -/
inductive RunAction
  /-- Single-image source: `process_img(face_path, source_path, output_path, overwrite)`. -/
  | runProcessImg
  /-- `process_image_mode(...)`: extract/swap frames on disk. -/
  | runImageMode
  /-- `process_streamed(...)`: live decode, swap, encode. -/
  | runStreamed
deriving DecidableEq, Repr

/-- Translation of the decision spine of `start(args)` after the output path is
resolved (formatted-path substitution, directory targets and the default
`.swapped` name all happen first and produce `outputPath`): only outside image
mode, `ensure(not output_path.exists(), ...)` refuses a pre-existing output
unless overwrite is allowed; then an image-file source goes to `process_img`,
and otherwise the run proceeds to image-mode or streamed processing.  Probing,
fps handling and the timers are elided — no frame is touched before the branch
returned here. -/
def startAction (imageMode overwrite sourceIsFile sourceIsImg : Bool)
    (fs : FS) (outputPath : FPath) : Except Err RunAction :=
  if !imageMode && !overwrite && pathExists fs outputPath then
    .error .outputAlreadyExists
  else if sourceIsFile && sourceIsImg then .ok .runProcessImg
  else if imageMode then .ok .runImageMode
  else .ok .runStreamed

/-- Counterexample for C8 as stated: in image mode (`--image_mode`), with
overwrite not allowed and a file already present at the resolved final output
path, the run is not refused at start — the pre-existence `ensure` sits inside
the `if not image_mode:` branch, so the pipeline proceeds into image-mode frame
processing with the collision still in place. -/
theorem c8_output_collision_counterexample :
    startAction true false false false [⟨"d", "o.mp4"⟩] ⟨"d", "o.mp4"⟩ =
        .ok .runImageMode
      ∧ pathExists [⟨"d", "o.mp4"⟩] ⟨"d", "o.mp4"⟩ = true := by
  exact ⟨rfl, by decide⟩

/-- C8 amended: outside image mode, a run with overwrite not allowed and a file
already existing at the resolved final output path is refused with the
output-already-exists error before any processing action is taken — and this is
the only way that error arises at start-up; in image mode the start-up
pre-existence check is skipped. -/
theorem c8_output_collision_refused
    (imageMode overwrite sourceIsFile sourceIsImg : Bool) (fs : FS) (outputPath : FPath) :
    (imageMode = false → overwrite = false → pathExists fs outputPath = true →
      startAction imageMode overwrite sourceIsFile sourceIsImg fs outputPath =
        .error .outputAlreadyExists)
    ∧ (startAction imageMode overwrite sourceIsFile sourceIsImg fs outputPath =
        .error .outputAlreadyExists →
      imageMode = false ∧ overwrite = false ∧ pathExists fs outputPath = true) := by
  constructor
  · intro h1 h2 h3
    simp [startAction, h1, h2, h3]
  · intro h
    by_cases hc : (!imageMode && !overwrite && pathExists fs outputPath) = true
    · simp only [Bool.and_eq_true, Bool.not_eq_true'] at hc
      exact ⟨hc.1.1, hc.1.2, hc.2⟩
    · exfalso
      rw [startAction, if_neg hc] at h
      by_cases hf : (sourceIsFile && sourceIsImg) = true
      · rw [if_pos hf] at h; cases h
      · rw [if_neg hf] at h
        by_cases hm : imageMode = true
        · rw [if_pos hm] at h; cases h
        · rw [if_neg hm] at h; cases h

/-- Witness for C8 amended: a streamed (non-image-mode) run with an existing
output file and no overwrite is refused at start. -/
theorem c8_output_collision_refused_witness :
    startAction false false true false [⟨"d", "o.mp4"⟩] ⟨"d", "o.mp4"⟩ =
      .error .outputAlreadyExists :=
  (c8_output_collision_refused false false true false [⟨"d", "o.mp4"⟩] ⟨"d", "o.mp4"⟩).1
    rfl rfl (by decide)

/-! Frame-rate selection (`start`, lines 218-225, and the rate filter of
`_frame_gen_ffmpeg`, line 317). -/

/-- Translation of the fps block of `start`:
`if fps_target and vid_info.fps > fps_target:` sets both `fps_use` (the rate to
read from the source, i.e. the decoder's rate filter) and `fps_swapped` (the
output video's frame rate) to the target; otherwise `fps_use = None` and
`fps_swapped = vid_info.fps`.  Python truthiness makes a target of `0` count as
not configured.  Returns `(fps_use, fps_swapped)`. -/
def selectFps (fpsTarget : Option ℚ) (srcFps : ℚ) : Option ℚ × ℚ :=
  match fpsTarget with
  | none => (none, srcFps)
  | some t => if t ≠ 0 ∧ t < srcFps then (some t, t) else (none, srcFps)

/-- Rate-filter argument of `_frame_gen_ffmpeg`:
`fps = ["-filter:v", f"fps=fps={fps_to_output}"] if fps_to_output else []` —
the filter is emitted with value `t` exactly when `fps_to_output` is truthy. -/
def ffmpegRateFilter (fpsToOutput : Option ℚ) : Option ℚ :=
  match fpsToOutput with
  | none => none
  | some t => if t ≠ 0 then some t else none

/-- C10: the decoder rate filter is applied only when a (nonzero) target frame
rate is configured and the probed source rate strictly exceeds it; in that case
both the rate filter and the output frame rate are the target value, and in
every other case — no target, zero target, or source rate not above the target
(in particular a target equal to the source rate) — no filter is applied and
the output frame rate is the source rate unchanged. -/
theorem c10_fps_downsampling (fpsTarget : Option ℚ) (srcFps : ℚ) :
    (∀ t, fpsTarget = some t → t ≠ 0 → t < srcFps →
      selectFps fpsTarget srcFps = (some t, t) ∧
        ffmpegRateFilter (selectFps fpsTarget srcFps).1 = some t)
    ∧ (fpsTarget = none →
      selectFps fpsTarget srcFps = (none, srcFps) ∧
        ffmpegRateFilter (selectFps fpsTarget srcFps).1 = none)
    ∧ (∀ t, fpsTarget = some t → (t = 0 ∨ srcFps ≤ t) →
      selectFps fpsTarget srcFps = (none, srcFps) ∧
        ffmpegRateFilter (selectFps fpsTarget srcFps).1 = none)
    ∧ (fpsTarget = some srcFps →
      selectFps fpsTarget srcFps = (none, srcFps)) := by
  refine ⟨?_, ?_, ?_, ?_⟩
  · intro t ht hne hlt
    subst ht
    simp [selectFps, ffmpegRateFilter, hne, hlt]
  · intro h
    subst h
    simp [selectFps, ffmpegRateFilter]
  · intro t ht hcase
    subst ht
    have hnot : ¬(t ≠ 0 ∧ t < srcFps) := by
      rcases hcase with h | h
      · intro hc; exact hc.1 h
      · intro hc; exact absurd hc.2 (not_lt.2 h)
    simp [selectFps, ffmpegRateFilter, hnot]
  · intro h
    subst h
    simp [selectFps]

/-- Witness for C10: target 24 against a 30 fps source downsamples to 24 with
the filter set; target 30 against a 30 fps source has no effect. -/
theorem c10_fps_downsampling_witness :
    (selectFps (some 24) 30 = (some 24, 24) ∧
      ffmpegRateFilter (selectFps (some 24) 30).1 = some 24)
    ∧ selectFps (some 30) 30 = (none, 30) :=
  ⟨(c10_fps_downsampling (some 24) 30).1 24 rfl (by norm_num) (by norm_num),
   (c10_fps_downsampling (some 30) 30).2.2.2 rfl⟩

end Roop
